import Mathlib

/-!
A shallow embedding of `src/direkt_ciufciuf/scraper/main.py`
(class PolishRailwayScraper and run_scraper): the cache store
(load_existing_data, save_compressed_json), the rate limited fetcher
(fetch_trains_for_station) and the crawl loop (scrape_all_trains,
fetch_stations, run_scraper).

Modelling conventions:
- Python dicts are association lists with in-place update of an existing
  key and append of a fresh one (`dinsert`), preserving insertion order.
- Python dict keys met by this program are integers, strings or None
  (`PKey`); Python `str` on such a key is `pyStr`.
- Network activity and `asyncio.sleep` calls are recorded in an explicit
  event trace (`Event`); sleep durations are in tenths of a second, so
  `sleep 2` is the 0.2 s delay and `sleep 5` the 0.5 s delay of main.py.
- Exceptions of the koleo client are `Except` values; a raised exception
  from `get_train` (or a missing key in its response) is `Except.error ()`.
- `json.dumps` of a dict stringifies keys (duplicates allowed in the
  output document); `json.loads` of a document keeps the last binding of
  a repeated key.  gzip round trips bytes and is modelled as the
  identity on the dumped document.  JSON numbers never inspected by any
  claim (coordinates and the like) are modelled as integers.
-/

namespace Scraper

/-! ### Decimal rendering of integers: Python `str` on int -/

def digitChar : Nat → Char
  | 0 => '0'
  | 1 => '1'
  | 2 => '2'
  | 3 => '3'
  | 4 => '4'
  | 5 => '5'
  | 6 => '6'
  | 7 => '7'
  | 8 => '8'
  | 9 => '9'
  | _ => '*'

def charVal (c : Char) : Nat := c.toNat - 48

/-- Fuel driven decimal expansion, most significant digit first. -/
def natToDigits : Nat → Nat → List Char → List Char
  | 0, _, acc => acc
  | fuel + 1, n, acc =>
      if n < 10 then digitChar n :: acc
      else natToDigits fuel (n / 10) (digitChar (n % 10) :: acc)

def natStr (n : Nat) : String := ⟨natToDigits (n + 1) n []⟩

/-- Python `str` applied to an int. -/
def intStr : Int → String
  | .ofNat m => natStr m
  | .negSucc m => "-" ++ natStr (m + 1)

/-- Evaluation map used to prove `natStr` injective: reads a most
significant first digit list back into a number. -/
def valAux (a : Nat) : List Char → Nat
  | [] => a
  | c :: cs => valAux (10 * a + charVal c) cs

def charDigit (c : Char) : Option Nat :=
  if 48 ≤ c.toNat ∧ c.toNat ≤ 57 then some (c.toNat - 48) else none

def natOfChars (a : Nat) : List Char → Option Nat
  | [] => some a
  | c :: cs =>
      match charDigit c with
      | some d => natOfChars (10 * a + d) cs
      | none => none

/-- Python `int` applied to a string, as reachable in main.py: the
argument is always `str(key)` of a dict key.  A ValueError (malformed
string) is `none`. -/
def pyIntOfStr (s : String) : Option Int :=
  match s.data with
  | [] => none
  | '-' :: [] => none
  | '-' :: c :: cs => (natOfChars 0 (c :: cs)).map (fun n => -(n : Int))
  | cs => (natOfChars 0 cs).map (fun n => (n : Int))

/-! ### Python dict keys and dict operations -/

/-- A Python dict key as met by this program: an int (station ids from
the API), a string (JSON object keys, `str(train_id)`), or None (a
station record without an id field). -/
inductive PKey where
  | pint (n : Int)
  | pstr (s : String)
  | pnone
deriving DecidableEq

/-- Python `str` of a key. -/
def pyStr : PKey → String
  | .pint n => intStr n
  | .pstr s => s
  | .pnone => "None"

/-- Python dict lookup (`d[k]` / `k in d`). -/
def dget {K V : Type} [DecidableEq K] : List (K × V) → K → Option V
  | [], _ => none
  | (k', v) :: rest, k => if k' = k then some v else dget rest k

/-- Python dict assignment `d[k] = v`: replace in place if the key
exists, append otherwise. -/
def dinsert {K V : Type} [DecidableEq K] : List (K × V) → K → V → List (K × V)
  | [], k, v => [(k, v)]
  | (k', v') :: rest, k, v =>
      if k' = k then (k, v) :: rest else (k', v') :: dinsert rest k v

def dkeys {K V : Type} (d : List (K × V)) : List K := d.map Prod.fst

/-- Build a dict from a pair list by successive assignment: position of
the first occurrence of a key, value of the last (Python dict
comprehension and `json.loads` on repeated keys). -/
def dictOfPairs {K V : Type} [DecidableEq K] (ps : List (K × V)) : List (K × V) :=
  ps.foldl (fun d p => dinsert d p.1 p.2) []

/-! ### The persistence layer (save_compressed_json / load_existing_data) -/

/-- `json.dumps` of a dict: keys are stringified in insertion order;
a dict mixing the int key 1 and the string key "1" yields a document
with a repeated key. -/
def jdumps {V : Type} (d : List (PKey × V)) : List (String × V) :=
  d.map (fun p => (pyStr p.1, p.2))

/-- `json.loads` of an object document: last binding of a repeated key
wins. -/
def jloads {V : Type} (doc : List (String × V)) : List (String × V) :=
  dictOfPairs doc

/-- The parsed document as a Python dict: JSON object keys are strings. -/
def ofJson {V : Type} (doc : List (String × V)) : List (PKey × V) :=
  doc.map (fun p => (PKey.pstr p.1, p.2))

/-- load_existing_data, stations branch (main.py lines 47-59): the
parsed dict is assigned to `self.stations` as is — no key conversion. -/
def loadStationsFromParsed {V : Type} (d : List (PKey × V)) : List (PKey × V) := d

/-- load_existing_data, trains branch (main.py lines 62-78): the
comprehension rebuilding the dict with `str` applied to every key
("Convert keys to strings for consistency"). -/
def loadTrainsFromParsed {V : Type} (d : List (PKey × V)) : List (PKey × V) :=
  dictOfPairs (d.map (fun p => (PKey.pstr (pyStr p.1), p.2)))

/-- Loading the stations cache file (gzip and plain branches apply the
same post-processing). -/
def loadStationsFile {V : Type} (doc : List (String × V)) : List (PKey × V) :=
  loadStationsFromParsed (ofJson (jloads doc))

/-- Loading the trains cache file (gzip and plain branches apply the
same post-processing). -/
def loadTrainsFile {V : Type} (doc : List (String × V)) : List (PKey × V) :=
  loadTrainsFromParsed (ofJson (jloads doc))

/-- save_compressed_json (main.py lines 317-323): gzip of `json.dumps`;
gzip round trips, so the saved document is the dumped pair list. -/
def saveCompressedJson {V : Type} (d : List (PKey × V)) : List (String × V) :=
  jdumps d

/-- Modelled from the spec: "structurally-equal (key-normalized)
collection" — every key replaced by its canonical string form, later
bindings for the same canonical key winning. -/
def specNormalize {V : Type} (d : List (PKey × V)) : List (PKey × V) :=
  dictOfPairs (d.map (fun p => (PKey.pstr (pyStr p.1), p.2)))

/-! ### Data shapes of the scraper -/

/-- One stop of a stored train route (built in fetch_trains_for_station
from the get_train response). -/
structure RouteStop where
  station_id : Option Int
  station_name : Option String
  arrival_time : Option String
  departure_time : Option String
deriving DecidableEq

/-- One stop of the get_train response. -/
structure TrainStop where
  station_id : Option Int
  station_name : Option String
  arrival : Option String
  departure : Option String
deriving DecidableEq

/-- The get_train response: the `train` object (its `name` field) and
the `stops` list.  A response missing these keys raises, which is folded
into the error case of the API model. -/
structure TrainDetails where
  train_name : Option String
  stops : List TrainStop
deriving DecidableEq

/-- A value of `self.trains`.  The Python value is a dict; optional
fields absent from one of the two shapes (full route vs degraded stub)
are `none`. -/
structure TrainRecord where
  train_id : Int
  train_number : Option String
  carrier : Option Int
  date : String
  stops : List RouteStop
  route_name : Option String
  total_stops : Option Nat
  departure_station_id : Option String
  departure_station_name : Option String
  departure_time : Option String
  destination_station_id : Option Int
  destination_station_name : Option String
  platform : Option String
  track : Option String
deriving DecidableEq

/-- An element of the `stations` list inside a departure item. -/
structure DepartureStation where
  train_id : Option Int
  id : Option Int
  name : Option String
deriving DecidableEq

/-- One departure item of the get_departures response. -/
structure Departure where
  stations : Option (List DepartureStation)
  train_full_name : Option String
  brand_id : Option Int
  departure : Option String
  platform : Option String
  track : Option String
deriving DecidableEq

/-- One station of the get_stations response. -/
structure RawStation where
  id : Option Int
  name : Option String
  city : Option String
  latitude : Option Int
  longitude : Option Int
  country : Option String
  transport_mode : Option String
  type : Option String
  region : Option String
  ibnr : Option Int
  time_zone : Option String
deriving DecidableEq

/-- A value of `self.stations`, as built by fetch_stations. -/
structure StationInfo where
  id : Option Int
  name : String
  city : String
  latitude : Option Int
  longitude : Option Int
  country : String
  transport_mode : Option String
  type : Option String
  region : Option String
  ibnr : Option Int
  time_zone : String
deriving DecidableEq

/-- The observable effects of a run: network calls and delays. -/
inductive Event where
  | getDepartures (stationId : Int) (date : String)
  | getTrain (trainId : Int) (ok : Bool)
  | sleep (tenths : Nat)
deriving DecidableEq

/-- The koleo client: responses of the three remote operations. -/
structure Api where
  getStationsResult : Except Unit (List RawStation)
  departures : Int → String → List Departure
  getTrain : Int → Except Unit TrainDetails

def Event.isNetwork : Event → Bool
  | .getDepartures _ _ => true
  | .getTrain _ _ => true
  | .sleep _ => false

def networkCalls (es : List Event) : Nat := (es.filter Event.isNetwork).length

def Event.isGetDep : Event → Bool
  | .getDepartures _ _ => true
  | _ => false

def Event.isGetTrainCall : Event → Bool
  | .getTrain _ _ => true
  | _ => false

def Event.isOkGetTrain : Event → Bool
  | .getTrain _ true => true
  | _ => false

def Event.isSleepSmall : Event → Bool
  | .sleep 2 => true
  | _ => false

/-! ### fetch_trains_for_station (main.py lines 121-223) -/

/-- `departure.get('stations', [dict()])[0].get('train_id') if
departure.get('stations') else None`, followed by the truthiness test
`if train_id:` (0 and None are falsy). -/
def truthyTrainId (dep : Departure) : Option Int :=
  match dep.stations with
  | none => none
  | some [] => none
  | some (s :: _) =>
      match s.train_id with
      | none => none
      | some t => if t = 0 then none else some t

/-- First element of the stations list when that list is truthy. -/
def firstStation (dep : Departure) : Option DepartureStation :=
  match dep.stations with
  | some (s :: _) => some s
  | _ => none

/-- The mutable state of the departure loop: the `trains` result list,
the `self.trains` cache, the two counters and the event trace. -/
structure LoopSt where
  trains : List TrainRecord
  cache : List (PKey × TrainRecord)
  newCount : Nat
  cachedCount : Nat
  events : List Event
deriving DecidableEq

/-- The record stored on a successful get_train call (main.py lines
174-182). -/
def fullRecord (tid : Int) (dep : Departure) (tomorrow : String)
    (td : TrainDetails) : TrainRecord :=
  { train_id := tid,
    train_number := dep.train_full_name,
    carrier := dep.brand_id,
    date := tomorrow,
    stops := td.stops.map (fun st =>
      { station_id := st.station_id,
        station_name := st.station_name,
        arrival_time := st.arrival,
        departure_time := st.departure }),
    route_name := some (td.train_name.getD ""),
    total_stops := some td.stops.length,
    departure_station_id := none,
    departure_station_name := none,
    departure_time := none,
    destination_station_id := none,
    destination_station_name := none,
    platform := none,
    track := none }

/-- The degraded stub stored when get_train raises (main.py lines
190-206): same keyed record, empty stops list. -/
def stubRecord (tid : Int) (dep : Departure) (tomorrow : String)
    (stationIdStr stationName : String) : TrainRecord :=
  { train_id := tid,
    train_number := dep.train_full_name,
    carrier := dep.brand_id,
    date := tomorrow,
    stops := [],
    route_name := none,
    total_stops := none,
    departure_station_id := some stationIdStr,
    departure_station_name := some stationName,
    departure_time := dep.departure,
    destination_station_id := (firstStation dep).bind DepartureStation.id,
    destination_station_name := (firstStation dep).bind DepartureStation.name,
    platform := dep.platform,
    track := dep.track }

/-- The body of the departure loop for one departure item (main.py
lines 139-208).  The 0.2 s sleep sits inside the try block, after the
successful store; the failure path stores the stub and emits no sleep. -/
def processDeparture (api : Api) (tomorrow : String)
    (stationIdStr stationName : String) (s : LoopSt) (dep : Departure) : LoopSt :=
  match truthyTrainId dep with
  | none => s
  | some tid =>
      match dget s.cache (PKey.pstr (intStr tid)) with
      | some cachedRec =>
          { s with trains := s.trains ++ [cachedRec],
                   cachedCount := s.cachedCount + 1 }
      | none =>
          match api.getTrain tid with
          | .ok td =>
              { s with trains := s.trains ++ [fullRecord tid dep tomorrow td],
                       cache := dinsert s.cache (PKey.pstr (intStr tid))
                         (fullRecord tid dep tomorrow td),
                       newCount := s.newCount + 1,
                       events := s.events ++ [Event.getTrain tid true, Event.sleep 2] }
          | .error _ =>
              { s with trains := s.trains ++ [stubRecord tid dep tomorrow stationIdStr stationName],
                       cache := dinsert s.cache (PKey.pstr (intStr tid))
                         (stubRecord tid dep tomorrow stationIdStr stationName),
                       newCount := s.newCount + 1,
                       events := s.events ++ [Event.getTrain tid false] }

/-- fetch_trains_for_station: `int(station_id)` (a ValueError is caught
by the surrounding try and yields the empty result), one get_departures
call for tomorrow, the departure loop, and the 0.5 s sleep only when a
new request was made. -/
def fetchTrainsForStation (api : Api) (tomorrow : String)
    (cache : List (PKey × TrainRecord)) (stationIdStr stationName : String) : LoopSt :=
  match pyIntOfStr stationIdStr with
  | none => { trains := [], cache := cache, newCount := 0, cachedCount := 0, events := [] }
  | some sid =>
      let deps := api.departures sid tomorrow
      let s0 : LoopSt :=
        { trains := [], cache := cache, newCount := 0, cachedCount := 0,
          events := [Event.getDepartures sid tomorrow] }
      let s1 := deps.foldl (processDeparture api tomorrow stationIdStr stationName) s0
      if 0 < s1.newCount then { s1 with events := s1.events ++ [Event.sleep 5] } else s1

/-! ### The crawl loop (scrape_all_trains, main.py lines 258-287) -/

/-- The scraper state: the two dicts, the processed set, the last
checkpoint written to disk, and the accumulated event trace. -/
structure ScrapeState where
  stations : List (PKey × StationInfo)
  trains : List (PKey × TrainRecord)
  processed : List PKey
  disk : Option (List (PKey × StationInfo) × List (PKey × TrainRecord))
  events : List Event
deriving DecidableEq

/-- `self.processed_stations.add k` on a set modelled as a duplicate
free list. -/
def padd (s : List PKey) (k : PKey) : List PKey := if k ∈ s then s else s ++ [k]

/-- One iteration of the station loop: skip an already processed
station, otherwise fetch, mark processed, and checkpoint when the
processed count is a multiple of `saveEvery` (500 in
scrape_all_trains). -/
def scrapeStep (api : Api) (tomorrow : String) (saveEvery : Nat)
    (st : ScrapeState) (item : PKey × StationInfo) : ScrapeState :=
  if item.1 ∈ st.processed then st
  else
    let r := fetchTrainsForStation api tomorrow st.trains (pyStr item.1) item.2.name
    let processed1 := padd st.processed item.1
    let st1 : ScrapeState :=
      { st with trains := r.cache, processed := processed1,
                events := st.events ++ r.events }
    if processed1.length % saveEvery = 0 then
      { st1 with disk := some (st1.stations, st1.trains) }
    else st1

/-- The station loop over a fixed worklist (the snapshot
`list(self.stations.items())`). -/
def scrapeLoop (api : Api) (tomorrow : String) (saveEvery : Nat)
    (st : ScrapeState) (worklist : List (PKey × StationInfo)) : ScrapeState :=
  worklist.foldl (scrapeStep api tomorrow saveEvery) st

/-- scrape_all_trains: the loop over all stations with a checkpoint
every 500 processed stations. -/
def scrapeAllTrains (api : Api) (tomorrow : String) (st : ScrapeState) : ScrapeState :=
  scrapeLoop api tomorrow 500 st st.stations

/-! ### fetch_stations (main.py lines 87-119) and run_scraper -/

def pkeyOfId : Option Int → PKey
  | some n => PKey.pint n
  | none => PKey.pnone

/-- The dict built for one station of the get_stations response. -/
def stationInfoOfRaw (s : RawStation) : StationInfo :=
  { id := s.id,
    name := s.name.getD "",
    city := s.city.getD "",
    latitude := s.latitude,
    longitude := s.longitude,
    country := s.country.getD "PL",
    transport_mode := s.transport_mode,
    type := s.type,
    region := s.region,
    ibnr := s.ibnr,
    time_zone := s.time_zone.getD "Europe/Warsaw" }

/-- fetch_stations: on success every response station is assigned into
`self.stations`; an exception is caught and logged, the method returns
an empty dict but `self.stations` keeps whatever it already held. -/
def fetchStations (api : Api) (st : ScrapeState) : ScrapeState :=
  match api.getStationsResult with
  | .error _ => st
  | .ok data =>
      { st with stations :=
          data.foldl (fun d s => dinsert d (pkeyOfId s.id) (stationInfoOfRaw s)) st.stations }

/-- run_scraper on the full scrape path (the hard coded sample path is
outside every claim): fetch stations, crawl unless stations_only, save
final data (the summary file is not modelled). -/
def runScraper (api : Api) (tomorrow : String) (stationsOnly : Bool)
    (st0 : ScrapeState) : ScrapeState :=
  let st1 := fetchStations api st0
  let st2 := if stationsOnly then st1 else scrapeAllTrains api tomorrow st1
  { st2 with disk := some (st2.stations, st2.trains) }

/-- Pre-population check used by the idempotence theorem: every train a
station worklist item would reference on the given date is already a
key of the cache. -/
def allCandidatesCached (api : Api) (tomorrow : String)
    (cache : List (PKey × TrainRecord)) (item : PKey × StationInfo) : Bool :=
  match pyIntOfStr (pyStr item.1) with
  | none => true
  | some sid =>
      (api.departures sid tomorrow).all (fun dep =>
        match truthyTrainId dep with
        | none => true
        | some tid => (dget cache (PKey.pstr (intStr tid))).isSome)

/-! ### Concrete inputs for witnesses and counterexamples -/

/-- A departure whose first listed station carries the given train id. -/
def depOf (tid : Int) : Departure :=
  { stations := some [{ train_id := some tid, id := some 7, name := some ("Wien") }],
    train_full_name := some ("IC 1000"),
    brand_id := some 1,
    departure := some ("08:00"),
    platform := none,
    track := none }

def tdSample : TrainDetails :=
  { train_name := some ("Route A"),
    stops := [{ station_id := some 1, station_name := some ("A"),
                arrival := none, departure := some ("08:00") },
              { station_id := some 2, station_name := some ("B"),
                arrival := some ("09:00"), departure := none }] }

def infoA : StationInfo :=
  { id := some 1, name := "A", city := "X", latitude := some 50, longitude := some 20,
    country := "PL", transport_mode := some ("train"), type := none, region := none,
    ibnr := none, time_zone := "Europe/Warsaw" }

def infoB : StationInfo :=
  { id := some 1, name := "B", city := "Y", latitude := some 51, longitude := some 21,
    country := "PL", transport_mode := some ("train"), type := none, region := none,
    ibnr := none, time_zone := "Europe/Warsaw" }

/-- Station 1 has one departure of train 100; get_train succeeds. -/
def api1 : Api :=
  { getStationsResult := Except.ok [],
    departures := fun sid d => if sid = 1 ∧ d = "D" then [depOf 100] else [],
    getTrain := fun tid => if tid = 100 then Except.ok tdSample else Except.error () }

/-- Station 1 has one departure of train 100; get_train always raises. -/
def api2 : Api :=
  { getStationsResult := Except.ok [],
    departures := fun sid d => if sid = 1 ∧ d = "D" then [depOf 100] else [],
    getTrain := fun _ => Except.error () }

/-- get_stations raises; no departures anywhere. -/
def api3 : Api :=
  { getStationsResult := Except.error (),
    departures := fun _ _ => [],
    getTrain := fun _ => Except.error () }

def st0C1 : ScrapeState :=
  { stations := [(PKey.pint 1, infoA)], trains := [], processed := [],
    disk := none, events := [] }

def run1C1 : ScrapeState := scrapeAllTrains api1 ("D") st0C1

def run2C1 : ScrapeState :=
  scrapeAllTrains api1 ("D") { st0C1 with trains := run1C1.trains }

/-! ### Injectivity of the decimal rendering -/

theorem charVal_digitChar {n : Nat} (h : n < 10) : charVal (digitChar n) = n := by
  interval_cases n <;> decide

theorem valAux_natToDigits :
    ∀ (fuel n : Nat), n < 10 ^ fuel →
      ∀ acc, valAux 0 (natToDigits fuel n acc) = valAux n acc := by
  intro fuel
  induction fuel with
  | zero =>
      intro n hn acc
      have h0 : n = 0 := Nat.lt_one_iff.mp (by simpa using hn)
      subst h0
      rfl
  | succ fuel ih =>
      intro n hn acc
      by_cases h : n < 10
      · have h1 : natToDigits (fuel + 1) n acc = digitChar n :: acc := by
          simp [natToDigits, h]
        have h2 : valAux 0 (digitChar n :: acc)
            = valAux (10 * 0 + charVal (digitChar n)) acc := rfl
        rw [h1, h2, charVal_digitChar h]
        norm_num
      · have h10 : (0 : Nat) < 10 := by decide
        have hdiv : n / 10 < 10 ^ fuel := by
          have hlt : n < 10 ^ fuel * 10 := by
            calc n < 10 ^ (fuel + 1) := hn
              _ = 10 ^ fuel * 10 := pow_succ 10 fuel
          exact (Nat.div_lt_iff_lt_mul h10).mpr hlt
        calc valAux 0 (natToDigits (fuel + 1) n acc)
            = valAux 0 (natToDigits fuel (n / 10) (digitChar (n % 10) :: acc)) := by
              simp [natToDigits, h]
          _ = valAux (n / 10) (digitChar (n % 10) :: acc) := ih (n / 10) hdiv _
          _ = valAux (10 * (n / 10) + charVal (digitChar (n % 10))) acc := rfl
          _ = valAux n acc := by
              rw [charVal_digitChar (Nat.mod_lt n h10), Nat.div_add_mod]

theorem n_lt_ten_pow (n : Nat) : n < 10 ^ (n + 1) := by
  calc n < 2 ^ n := Nat.lt_two_pow n
    _ ≤ 10 ^ n := Nat.pow_le_pow_left (by decide) n
    _ ≤ 10 ^ (n + 1) := Nat.pow_le_pow_right (by decide) (Nat.le_succ n)

theorem natStr_inj {n m : Nat} (h : natStr n = natStr m) : n = m := by
  have hd : natToDigits (n + 1) n [] = natToDigits (m + 1) m [] :=
    congrArg String.data h
  have e1 : valAux 0 (natToDigits (n + 1) n []) = n :=
    valAux_natToDigits (n + 1) n (n_lt_ten_pow n) []
  have e2 : valAux 0 (natToDigits (m + 1) m []) = m :=
    valAux_natToDigits (m + 1) m (n_lt_ten_pow m) []
  rw [hd, e2] at e1
  exact e1.symm

theorem natToDigits_shape :
    ∀ (fuel n : Nat) (acc : List Char),
      (∃ d rest, d < 10 ∧ natToDigits fuel n acc = digitChar d :: rest)
      ∨ natToDigits fuel n acc = acc := by
  intro fuel
  induction fuel with
  | zero => intro n acc; exact Or.inr rfl
  | succ fuel ih =>
      intro n acc
      by_cases h : n < 10
      · exact Or.inl ⟨n, acc, h, by simp [natToDigits, h]⟩
      · rcases ih (n / 10) (digitChar (n % 10) :: acc) with ⟨d, rest, hd, he⟩ | he
        · exact Or.inl ⟨d, rest, hd, by simp [natToDigits, h, he]⟩
        · exact Or.inl ⟨n % 10, acc, Nat.mod_lt n (by decide), by simp [natToDigits, h, he]⟩

theorem digitChar_ne_dash {d : Nat} (h : d < 10) : digitChar d ≠ '-' := by
  interval_cases d <;> decide

theorem data_append (a b : String) : (a ++ b).data = a.data ++ b.data :=
  String.data_append a b

theorem natStr_ne_dash_append (m k : Nat) : natStr m ≠ "-" ++ natStr k := by
  intro h
  have hdata : natToDigits (m + 1) m [] = '-' :: (natStr k).data := by
    have hx := congrArg String.data h
    simpa [natStr, data_append] using hx
  rcases natToDigits_shape (m + 1) m [] with ⟨d, rest, hd10, he⟩ | he
  · rw [he] at hdata
    injection hdata with h1 _
    exact digitChar_ne_dash hd10 h1
  · rw [he] at hdata
    exact List.noConfusion hdata

theorem intStr_inj : ∀ {a b : Int}, intStr a = intStr b → a = b := by
  intro a b h
  match a, b with
  | .ofNat m, .ofNat k =>
      exact congrArg Int.ofNat (natStr_inj (n := m) (m := k) h)
  | .negSucc m, .negSucc k =>
      have hd : ('-' :: (natStr (m + 1)).data) = ('-' :: (natStr (k + 1)).data) := by
        have hx := congrArg String.data h
        simpa [intStr, data_append] using hx
      have hdd : (natStr (m + 1)).data = (natStr (k + 1)).data := by
        injection hd
      have hs : natStr (m + 1) = natStr (k + 1) := congrArg String.mk hdd
      exact congrArg Int.negSucc (Nat.succ_injective (natStr_inj hs))
  | .ofNat m, .negSucc k =>
      exact absurd h (natStr_ne_dash_append m (k + 1))
  | .negSucc m, .ofNat k =>
      exact absurd h.symm (natStr_ne_dash_append k (m + 1))

theorem pstr_intStr_inj {a b : Int} (h : PKey.pstr (intStr a) = PKey.pstr (intStr b)) :
    a = b :=
  intStr_inj (PKey.pstr.inj h)

/-! ### Dict lemmas -/

theorem dget_dinsert_self {K V : Type} [DecidableEq K] (d : List (K × V)) (k : K) (v : V) :
    dget (dinsert d k v) k = some v := by
  induction d with
  | nil => simp [dinsert, dget]
  | cons p rest ih =>
      obtain ⟨k', v'⟩ := p
      by_cases h : k' = k
      · subst h; simp [dinsert, dget]
      · simp [dinsert, dget, h, ih]

theorem dget_dinsert_ne {K V : Type} [DecidableEq K] (d : List (K × V)) {kIns k : K}
    (v : V) (h : kIns ≠ k) : dget (dinsert d kIns v) k = dget d k := by
  induction d with
  | nil => simp [dinsert, dget, h]
  | cons p rest ih =>
      obtain ⟨k', v'⟩ := p
      by_cases hk : k' = kIns
      · subst hk; simp [dinsert, dget, h]
      · by_cases hk2 : k' = k
        · subst hk2; simp [dinsert, dget, hk]
        · simp [dinsert, dget, hk, hk2, ih]

theorem dinsert_of_not_mem {K V : Type} [DecidableEq K] {d : List (K × V)} {k : K}
    (v : V) (h : k ∉ dkeys d) : dinsert d k v = d ++ [(k, v)] := by
  induction d with
  | nil => rfl
  | cons p rest ih =>
      obtain ⟨k', v'⟩ := p
      have h1 : k' ≠ k := by
        intro he; exact h (by simp [dkeys, he])
      have h2 : k ∉ dkeys rest := by
        intro he; exact h (by simp [dkeys] at he ⊢; exact Or.inr he)
      simp [dinsert, h1, ih h2]

theorem dkeys_nil {K V : Type} : dkeys ([] : List (K × V)) = [] := rfl

theorem dkeys_cons {K V : Type} (p : K × V) (l : List (K × V)) :
    dkeys (p :: l) = p.1 :: dkeys l := rfl

theorem dkeys_dinsert {K V : Type} [DecidableEq K] (d : List (K × V)) (k : K) (v : V) :
    dkeys (dinsert d k v) = if k ∈ dkeys d then dkeys d else dkeys d ++ [k] := by
  induction d with
  | nil => simp [dinsert, dkeys]
  | cons p rest ih =>
      obtain ⟨k', v'⟩ := p
      by_cases h : k' = k
      · subst h; simp [dinsert, dkeys_cons]
      · have hne : ¬ k = k' := fun he => h he.symm
        simp only [dinsert, if_neg h, dkeys_cons, ih, List.mem_cons, hne, false_or]
        by_cases hm : k ∈ dkeys rest
        · simp [hm]
        · simp [hm]

theorem nodup_dkeys_dinsert {K V : Type} [DecidableEq K] {d : List (K × V)} (k : K) (v : V)
    (h : (dkeys d).Nodup) : (dkeys (dinsert d k v)).Nodup := by
  rw [dkeys_dinsert]
  by_cases hm : k ∈ dkeys d
  · simpa [hm] using h
  · simp only [hm, if_false]
    simpa [List.nodup_append] using ⟨h, hm⟩

theorem mem_dkeys_dinsert {K V : Type} [DecidableEq K] {d : List (K × V)} {k k' : K}
    {v : V} (h : k' ∈ dkeys (dinsert d k v)) : k' ∈ dkeys d ∨ k' = k := by
  rw [dkeys_dinsert] at h
  by_cases hm : k ∈ dkeys d
  · simp [hm] at h; exact Or.inl h
  · simp [hm] at h; exact h

theorem dkeys_append {K V : Type} (a b : List (K × V)) :
    dkeys (a ++ b) = dkeys a ++ dkeys b :=
  List.map_append _ _ _

theorem foldl_dinsert_nodup {K V : Type} [DecidableEq K] :
    ∀ (ps acc : List (K × V)), (dkeys acc).Nodup →
      (dkeys (ps.foldl (fun d p => dinsert d p.1 p.2) acc)).Nodup := by
  intro ps
  induction ps with
  | nil => intro acc h; exact h
  | cons p rest ih =>
      intro acc h
      exact ih _ (nodup_dkeys_dinsert p.1 p.2 h)

theorem dkeys_dictOfPairs_nodup {K V : Type} [DecidableEq K] (ps : List (K × V)) :
    (dkeys (dictOfPairs ps)).Nodup :=
  foldl_dinsert_nodup ps [] (by simp [dkeys])

theorem mem_foldl_dinsert {K V : Type} [DecidableEq K] :
    ∀ (ps acc : List (K × V)) (k : K),
      k ∈ dkeys (ps.foldl (fun d p => dinsert d p.1 p.2) acc) →
      k ∈ dkeys acc ∨ k ∈ dkeys ps := by
  intro ps
  induction ps with
  | nil => intro acc k h; exact Or.inl h
  | cons p rest ih =>
      intro acc k h
      rcases ih _ k h with h1 | h1
      · rcases mem_dkeys_dinsert h1 with h2 | h2
        · exact Or.inl h2
        · exact Or.inr (by rw [dkeys_cons, h2]; exact List.mem_cons_self _ _)
      · exact Or.inr (by rw [dkeys_cons]; exact List.mem_cons_of_mem _ h1)

theorem mem_dkeys_dictOfPairs {K V : Type} [DecidableEq K] {ps : List (K × V)} {k : K}
    (h : k ∈ dkeys (dictOfPairs ps)) : k ∈ dkeys ps := by
  rcases mem_foldl_dinsert ps [] k h with h1 | h1
  · simp [dkeys] at h1
  · exact h1

theorem foldl_dinsert_eq_append {K V : Type} [DecidableEq K] :
    ∀ (ps acc : List (K × V)), (dkeys (acc ++ ps)).Nodup →
      ps.foldl (fun d p => dinsert d p.1 p.2) acc = acc ++ ps := by
  intro ps
  induction ps with
  | nil => intro acc _; simp
  | cons p rest ih =>
      intro acc h
      obtain ⟨k1, v1⟩ := p
      have h' := h
      rw [dkeys_append, dkeys_cons, List.nodup_append] at h'
      obtain ⟨_, _, h3⟩ := h'
      have hnm : k1 ∉ dkeys acc := fun hm => h3 hm (List.mem_cons_self _ _)
      have hstep : dinsert acc k1 v1 = acc ++ [(k1, v1)] := dinsert_of_not_mem v1 hnm
      have hassoc : (acc ++ [(k1, v1)]) ++ rest = acc ++ (k1, v1) :: rest := by simp
      rw [List.foldl_cons]
      show rest.foldl (fun d p => dinsert d p.1 p.2) (dinsert acc k1 v1) = _
      rw [hstep, ih (acc ++ [(k1, v1)]) (by rw [hassoc]; exact h), hassoc]

theorem dictOfPairs_eq_self {K V : Type} [DecidableEq K] {ps : List (K × V)}
    (h : (dkeys ps).Nodup) : dictOfPairs ps = ps := by
  have hx := foldl_dinsert_eq_append ps [] (by simpa using h)
  simpa [dictOfPairs] using hx

theorem map_dinsert {K K2 V : Type} [DecidableEq K] [DecidableEq K2] (f : K → K2)
    (hf : ∀ a b : K, f a = f b → a = b) (d : List (K × V)) (k : K) (v : V) :
    (dinsert d k v).map (fun p => (f p.1, p.2)) =
      dinsert (d.map (fun p => (f p.1, p.2))) (f k) v := by
  induction d with
  | nil => rfl
  | cons p rest ih =>
      obtain ⟨k', v'⟩ := p
      by_cases h : k' = k
      · subst h; simp [dinsert]
      · have h2 : ¬ f k' = f k := fun he => h (hf _ _ he)
        simp [dinsert, h, h2, ih]

theorem map_foldl_dinsert {K K2 V : Type} [DecidableEq K] [DecidableEq K2] (f : K → K2)
    (hf : ∀ a b : K, f a = f b → a = b) :
    ∀ (ps acc : List (K × V)),
      (ps.foldl (fun d p => dinsert d p.1 p.2) acc).map (fun p => (f p.1, p.2)) =
        (ps.map (fun p => (f p.1, p.2))).foldl (fun d p => dinsert d p.1 p.2)
          (acc.map (fun p => (f p.1, p.2))) := by
  intro ps
  induction ps with
  | nil => intro acc; rfl
  | cons p rest ih =>
      intro acc
      simp only [List.foldl_cons, List.map_cons]
      rw [ih, map_dinsert f hf]

theorem map_dictOfPairs {K K2 V : Type} [DecidableEq K] [DecidableEq K2] (f : K → K2)
    (hf : ∀ a b : K, f a = f b → a = b) (ps : List (K × V)) :
    (dictOfPairs ps).map (fun p => (f p.1, p.2)) =
      dictOfPairs (ps.map (fun p => (f p.1, p.2))) := by
  have hx := map_foldl_dinsert f hf ps []
  simpa [dictOfPairs] using hx

theorem map_eq_self_of_forall {α : Type} {l : List α} {f : α → α}
    (h : ∀ x ∈ l, f x = x) : l.map f = l := by
  induction l with
  | nil => rfl
  | cons a l ih =>
      simp only [List.map_cons, h a (List.mem_cons_self _ _)]
      rw [ih (fun x hx => h x (List.mem_cons_of_mem _ hx))]

/-! ### Round trip of the cache store -/

theorem ofJson_jloads_jdumps {V : Type} (d : List (PKey × V)) :
    ofJson (jloads (jdumps d)) = specNormalize d := by
  unfold ofJson jloads jdumps specNormalize
  rw [map_dictOfPairs PKey.pstr (fun a b h => PKey.pstr.inj h)]
  rw [List.map_map]
  rfl

theorem dkeys_specNormalize_shape {V : Type} (d : List (PKey × V)) :
    ∀ k ∈ dkeys (specNormalize d), ∃ s, k = PKey.pstr s := by
  intro k hk
  have h1 : k ∈ dkeys (d.map (fun p => (PKey.pstr (pyStr p.1), p.2))) :=
    mem_dkeys_dictOfPairs hk
  unfold dkeys at h1
  rw [List.map_map] at h1
  rcases List.mem_map.mp h1 with ⟨p, _, he⟩
  exact ⟨pyStr p.1, he.symm⟩

theorem loadTrainsFromParsed_specNormalize {V : Type} (d : List (PKey × V)) :
    loadTrainsFromParsed (specNormalize d) = specNormalize d := by
  unfold loadTrainsFromParsed
  have hmap : (specNormalize d).map (fun p => (PKey.pstr (pyStr p.1), p.2))
      = specNormalize d := by
    apply map_eq_self_of_forall
    intro p hp
    obtain ⟨s, hs⟩ := dkeys_specNormalize_shape d p.1 (List.mem_map_of_mem Prod.fst hp)
    obtain ⟨k1, v1⟩ := p
    simp only at hs
    subst hs
    rfl
  rw [hmap]
  exact dictOfPairs_eq_self (dkeys_dictOfPairs_nodup _)

/-- C5: for every pair of in-memory collections, saving the cache store
and then loading it yields collections structurally equal to the
originals up to key normalization: the loaded stations and trains dicts
are exactly the canonical key normalizations (string keys, last binding
of a shared canonical key winning) of the in-memory ones. -/
theorem save_then_load_is_key_normalization
    (stations : List (PKey × StationInfo)) (trains : List (PKey × TrainRecord)) :
    loadStationsFile (saveCompressedJson stations) = specNormalize stations
    ∧ loadTrainsFile (saveCompressedJson trains) = specNormalize trains := by
  constructor
  · exact ofJson_jloads_jdumps stations
  · show loadTrainsFromParsed (ofJson (jloads (jdumps trains))) = specNormalize trains
    rw [ofJson_jloads_jdumps, loadTrainsFromParsed_specNormalize]

/-- C4, counterexample: loading a stations dict whose keys mix the
integer form and the string form of the same identifier keeps both
entries — the stations branch of load_existing_data applies no key
normalization, so the canonical forms of the loaded keys are not
duplicate free, contradicting the claim for the entities collection. -/
theorem station_load_keeps_mixed_key_duplicates :
    ¬ (((loadStationsFromParsed
          [(PKey.pint 1, infoA), (PKey.pstr (intStr 1), infoB)]).map
        (fun p => pyStr p.1)).Nodup) := by decide

/-- C4 amended: on load only the records (trains) collection is key
normalized — its loaded keys have duplicate free canonical string
forms — while the entities (stations) collection is assigned exactly as
parsed, with no normalization. -/
theorem load_normalizes_only_train_keys
    (ds : List (PKey × StationInfo)) (dt : List (PKey × TrainRecord)) :
    loadStationsFromParsed ds = ds
    ∧ ((loadTrainsFromParsed dt).map (fun p => pyStr p.1)).Nodup := by
  refine ⟨rfl, ?_⟩
  have hshape : ∀ k ∈ dkeys (loadTrainsFromParsed dt), ∃ s, k = PKey.pstr s :=
    dkeys_specNormalize_shape dt
  have hnd : (dkeys (loadTrainsFromParsed dt)).Nodup := dkeys_dictOfPairs_nodup _
  have hmapped : ((dkeys (loadTrainsFromParsed dt)).map pyStr).Nodup := by
    apply List.Nodup.map_on ?_ hnd
    intro x hx y hy hxy
    obtain ⟨a, ha⟩ := hshape x hx
    obtain ⟨b, hb⟩ := hshape y hy
    subst ha; subst hb
    exact congrArg PKey.pstr hxy
  have hconv : (loadTrainsFromParsed dt).map (fun p => pyStr p.1)
      = (dkeys (loadTrainsFromParsed dt)).map pyStr := by
    unfold dkeys
    rw [List.map_map]
    rfl
  rw [hconv]
  exact hmapped

/-! ### The departure loop: branch characterization -/

/-- The four possible outcomes of one departure loop iteration: no
candidate train id, a cache hit, a successful fetch, a failed fetch. -/
theorem processDeparture_spec (api : Api) (tomorrow stationIdStr stationName : String)
    (s : LoopSt) (dep : Departure) :
    (truthyTrainId dep = none
      ∧ processDeparture api tomorrow stationIdStr stationName s dep = s)
    ∨ (∃ tid r, truthyTrainId dep = some tid
        ∧ dget s.cache (PKey.pstr (intStr tid)) = some r
        ∧ processDeparture api tomorrow stationIdStr stationName s dep
            = { s with trains := s.trains ++ [r], cachedCount := s.cachedCount + 1 })
    ∨ (∃ tid td, truthyTrainId dep = some tid
        ∧ dget s.cache (PKey.pstr (intStr tid)) = none
        ∧ api.getTrain tid = Except.ok td
        ∧ processDeparture api tomorrow stationIdStr stationName s dep
            = { s with
                trains := s.trains ++ [fullRecord tid dep tomorrow td],
                cache := dinsert s.cache (PKey.pstr (intStr tid)) (fullRecord tid dep tomorrow td),
                newCount := s.newCount + 1,
                events := s.events ++ [Event.getTrain tid true, Event.sleep 2] })
    ∨ (∃ tid, truthyTrainId dep = some tid
        ∧ dget s.cache (PKey.pstr (intStr tid)) = none
        ∧ api.getTrain tid = Except.error ()
        ∧ processDeparture api tomorrow stationIdStr stationName s dep
            = { s with
                trains := s.trains ++ [stubRecord tid dep tomorrow stationIdStr stationName],
                cache := dinsert s.cache (PKey.pstr (intStr tid))
                  (stubRecord tid dep tomorrow stationIdStr stationName),
                newCount := s.newCount + 1,
                events := s.events ++ [Event.getTrain tid false] }) := by
  cases htid : truthyTrainId dep with
  | none =>
      refine Or.inl ⟨rfl, ?_⟩
      simp only [processDeparture, htid]
  | some tid =>
      cases hc : dget s.cache (PKey.pstr (intStr tid)) with
      | some r =>
          refine Or.inr (Or.inl ⟨tid, r, rfl, hc, ?_⟩)
          simp only [processDeparture, htid, hc]
      | none =>
          cases hapi : api.getTrain tid with
          | ok td =>
              refine Or.inr (Or.inr (Or.inl ⟨tid, td, rfl, hc, ?_, ?_⟩))
              · exact hapi
              · simp only [processDeparture, htid, hc, hapi]
          | error e =>
              cases e
              refine Or.inr (Or.inr (Or.inr ⟨tid, rfl, hc, ?_, ?_⟩))
              · exact hapi
              · simp only [processDeparture, htid, hc, hapi]

/-! ### Cache entries are never replaced (create once, reuse) -/

theorem processDeparture_cache_preserved (api : Api)
    (tomorrow stationIdStr stationName : String) (s : LoopSt) (dep : Departure)
    {k : PKey} {v : TrainRecord} (h : dget s.cache k = some v) :
    dget (processDeparture api tomorrow stationIdStr stationName s dep).cache k = some v := by
  rcases processDeparture_spec api tomorrow stationIdStr stationName s dep with
    ⟨_, he⟩ | ⟨tid, r, _, _, he⟩ | ⟨tid, td, _, hc, _, he⟩ | ⟨tid, _, hc, _, he⟩
  · rw [he]; exact h
  · rw [he]; exact h
  · rw [he]
    have hkne : PKey.pstr (intStr tid) ≠ k := by
      intro heq; rw [heq, h] at hc; exact Option.noConfusion hc
    dsimp only
    rw [dget_dinsert_ne _ _ hkne]
    exact h
  · rw [he]
    have hkne : PKey.pstr (intStr tid) ≠ k := by
      intro heq; rw [heq, h] at hc; exact Option.noConfusion hc
    dsimp only
    rw [dget_dinsert_ne _ _ hkne]
    exact h

theorem depfold_cache_preserved (api : Api) (tomorrow stationIdStr stationName : String) :
    ∀ (deps : List Departure) (s : LoopSt) {k : PKey} {v : TrainRecord},
      dget s.cache k = some v →
      dget ((deps.foldl (processDeparture api tomorrow stationIdStr stationName) s).cache)
        k = some v := by
  intro deps
  induction deps with
  | nil => intro s k v h; exact h
  | cons dep rest ih =>
      intro s k v h
      exact ih _ (processDeparture_cache_preserved _ _ _ _ _ _ h)

theorem fetch_parse_none (api : Api) (tomorrow : String)
    (cache : List (PKey × TrainRecord)) (stationIdStr stationName : String)
    (h : pyIntOfStr stationIdStr = none) :
    fetchTrainsForStation api tomorrow cache stationIdStr stationName
      = { trains := [], cache := cache, newCount := 0, cachedCount := 0, events := [] } := by
  simp only [fetchTrainsForStation, h]

theorem fetch_parse_some (api : Api) (tomorrow : String)
    (cache : List (PKey × TrainRecord)) (stationIdStr stationName : String)
    {sid : Int} (h : pyIntOfStr stationIdStr = some sid) :
    fetchTrainsForStation api tomorrow cache stationIdStr stationName
      = (if 0 < ((api.departures sid tomorrow).foldl
            (processDeparture api tomorrow stationIdStr stationName)
            { trains := [], cache := cache, newCount := 0, cachedCount := 0,
              events := [Event.getDepartures sid tomorrow] }).newCount
         then { (api.departures sid tomorrow).foldl
                  (processDeparture api tomorrow stationIdStr stationName)
                  { trains := [], cache := cache, newCount := 0, cachedCount := 0,
                    events := [Event.getDepartures sid tomorrow] } with
                events := ((api.departures sid tomorrow).foldl
                  (processDeparture api tomorrow stationIdStr stationName)
                  { trains := [], cache := cache, newCount := 0, cachedCount := 0,
                    events := [Event.getDepartures sid tomorrow] }).events
                  ++ [Event.sleep 5] }
         else (api.departures sid tomorrow).foldl
                (processDeparture api tomorrow stationIdStr stationName)
                { trains := [], cache := cache, newCount := 0, cachedCount := 0,
                  events := [Event.getDepartures sid tomorrow] }) := by
  simp only [fetchTrainsForStation, h]

theorem fetch_cache_preserved (api : Api) (tomorrow : String)
    (cache : List (PKey × TrainRecord)) (stationIdStr stationName : String)
    {k : PKey} {v : TrainRecord} (h : dget cache k = some v) :
    dget (fetchTrainsForStation api tomorrow cache stationIdStr stationName).cache
      k = some v := by
  cases hp : pyIntOfStr stationIdStr with
  | none =>
      rw [fetch_parse_none api tomorrow cache stationIdStr stationName hp]
      exact h
  | some sid =>
      rw [fetch_parse_some api tomorrow cache stationIdStr stationName hp]
      by_cases hn : 0 < ((api.departures sid tomorrow).foldl
          (processDeparture api tomorrow stationIdStr stationName)
          { trains := [], cache := cache, newCount := 0, cachedCount := 0,
            events := [Event.getDepartures sid tomorrow] }).newCount
      · rw [if_pos hn]
        exact depfold_cache_preserved api tomorrow stationIdStr stationName _ _ h
      · rw [if_neg hn]
        exact depfold_cache_preserved api tomorrow stationIdStr stationName _ _ h

theorem scrapeStep_trains_preserved (api : Api) (tomorrow : String) (saveEvery : Nat)
    (st : ScrapeState) (item : PKey × StationInfo) {k : PKey} {v : TrainRecord}
    (h : dget st.trains k = some v) :
    dget (scrapeStep api tomorrow saveEvery st item).trains k = some v := by
  unfold scrapeStep
  by_cases hm : item.1 ∈ st.processed
  · rw [if_pos hm]; exact h
  · rw [if_neg hm]
    dsimp only
    by_cases hs : (padd st.processed item.1).length % saveEvery = 0
    · rw [if_pos hs]
      exact fetch_cache_preserved _ _ _ _ _ h
    · rw [if_neg hs]
      exact fetch_cache_preserved _ _ _ _ _ h

theorem scrapeLoop_trains_preserved (api : Api) (tomorrow : String) (saveEvery : Nat) :
    ∀ (ws : List (PKey × StationInfo)) (st : ScrapeState) {k : PKey} {v : TrainRecord},
      dget st.trains k = some v →
      dget (scrapeLoop api tomorrow saveEvery st ws).trains k = some v := by
  intro ws
  induction ws with
  | nil => intro st k v h; exact h
  | cons item rest ih =>
      intro st k v h
      exact ih _ (scrapeStep_trains_preserved _ _ _ _ _ h)

/-- C9: a train record is created in the cache on its first fetch and
never mutated afterwards within a run — every key value binding present
in the cache when the crawl starts is still bound to the very same
record after scrape_all_trains has run (cache hits reuse the stored
record and the two storing paths are only reachable when the key is
absent). -/
theorem cached_record_never_mutated (api : Api) (tomorrow : String) (st0 : ScrapeState)
    (k : PKey) (v : TrainRecord) (h : dget st0.trains k = some v) :
    dget (scrapeAllTrains api tomorrow st0).trains k = some v :=
  scrapeLoop_trains_preserved api tomorrow 500 st0.stations st0 h

/-- Witness: a cache pre-populated with a record for train 100 still
maps its key to that exact record after a full crawl over station 1. -/
theorem cached_record_never_mutated_w :
    dget (scrapeAllTrains api1 ("D")
      { stations := [(PKey.pint 1, infoA)],
        trains := [(PKey.pstr (intStr 100), stubRecord 100 (depOf 100) ("D") ("1") ("A"))],
        processed := [], disk := none, events := [] }).trains
      (PKey.pstr (intStr 100))
      = some (stubRecord 100 (depOf 100) ("D") ("1") ("A")) :=
  cached_record_never_mutated api1 ("D") _ _ _ (by decide)

/-- C10: a departure item with no stations list, or whose first station
carries no train id, contributes nothing: the fetch stores nothing for
it, makes no detail call, counts it neither as cached nor as new, and
the loop state is completely unchanged by it. -/
theorem invalid_departure_is_skipped (api : Api)
    (tomorrow stationIdStr stationName : String) (s : LoopSt) (dep : Departure)
    (h : dep.stations = none ∨ dep.stations = some []
      ∨ ∃ s0 rest, dep.stations = some (s0 :: rest) ∧ s0.train_id = none) :
    processDeparture api tomorrow stationIdStr stationName s dep = s := by
  have htid : truthyTrainId dep = none := by
    rcases h with h | h | ⟨s0, rest, h, h2⟩
    · simp [truthyTrainId, h]
    · simp [truthyTrainId, h]
    · simp [truthyTrainId, h, h2]
  simp only [processDeparture, htid]

/-- Witness: a departure without a stations list leaves the loop state
untouched. -/
theorem invalid_departure_is_skipped_w :
    processDeparture api1 ("D") ("1") ("A")
      { trains := [], cache := [], newCount := 0, cachedCount := 0, events := [] }
      { stations := none, train_full_name := none, brand_id := none,
        departure := none, platform := none, track := none }
      = { trains := [], cache := [], newCount := 0, cachedCount := 0, events := [] } :=
  invalid_departure_is_skipped api1 ("D") ("1") ("A") _ _ (Or.inl rfl)

/-! ### The degraded stub policy -/

theorem processDeparture_stub_invariant (api : Api)
    (tomorrow stationIdStr stationName : String) {tid : Int}
    (herr : api.getTrain tid = Except.error ()) (s : LoopSt) (dep : Departure)
    (h : dget s.cache (PKey.pstr (intStr tid)) = none
       ∨ ∃ tr, dget s.cache (PKey.pstr (intStr tid)) = some tr
           ∧ tr.stops = [] ∧ tr.train_id = tid) :
    dget (processDeparture api tomorrow stationIdStr stationName s dep).cache
        (PKey.pstr (intStr tid)) = none
    ∨ ∃ tr, dget (processDeparture api tomorrow stationIdStr stationName s dep).cache
          (PKey.pstr (intStr tid)) = some tr
        ∧ tr.stops = [] ∧ tr.train_id = tid := by
  rcases processDeparture_spec api tomorrow stationIdStr stationName s dep with
    ⟨_, he⟩ | ⟨tid2, r, _, _, he⟩ | ⟨tid2, td, _, hc, hok, he⟩ | ⟨tid2, _, hc, herr2, he⟩
  · rw [he]; exact h
  · rw [he]; exact h
  · by_cases hkey : PKey.pstr (intStr tid2) = PKey.pstr (intStr tid)
    · exfalso
      have htideq : tid2 = tid := pstr_intStr_inj hkey
      rw [htideq, herr] at hok
      exact Except.noConfusion hok
    · rw [he]
      dsimp only
      rw [dget_dinsert_ne _ _ hkey]
      exact h
  · by_cases hkey : PKey.pstr (intStr tid2) = PKey.pstr (intStr tid)
    · have htideq : tid2 = tid := pstr_intStr_inj hkey
      subst htideq
      rw [he]
      dsimp only
      exact Or.inr ⟨stubRecord tid2 dep tomorrow stationIdStr stationName,
        dget_dinsert_self _ _ _, rfl, rfl⟩
    · rw [he]
      dsimp only
      rw [dget_dinsert_ne _ _ hkey]
      exact h

theorem depfold_stub_invariant (api : Api)
    (tomorrow stationIdStr stationName : String) {tid : Int}
    (herr : api.getTrain tid = Except.error ()) :
    ∀ (deps : List Departure) (s : LoopSt),
      (dget s.cache (PKey.pstr (intStr tid)) = none
        ∨ ∃ tr, dget s.cache (PKey.pstr (intStr tid)) = some tr
            ∧ tr.stops = [] ∧ tr.train_id = tid) →
      (dget ((deps.foldl (processDeparture api tomorrow stationIdStr stationName) s).cache)
          (PKey.pstr (intStr tid)) = none
        ∨ ∃ tr, dget ((deps.foldl (processDeparture api tomorrow stationIdStr stationName)
              s).cache) (PKey.pstr (intStr tid)) = some tr
            ∧ tr.stops = [] ∧ tr.train_id = tid) := by
  intro deps
  induction deps with
  | nil => intro s h; exact h
  | cons dep rest ih =>
      intro s h
      exact ih _ (processDeparture_stub_invariant api tomorrow stationIdStr stationName
        herr s dep h)

theorem processDeparture_stores_stub (api : Api)
    (tomorrow stationIdStr stationName : String) {tid : Int} (s : LoopSt) (dep : Departure)
    (htid : truthyTrainId dep = some tid)
    (herr : api.getTrain tid = Except.error ())
    (h : dget s.cache (PKey.pstr (intStr tid)) = none
       ∨ ∃ tr, dget s.cache (PKey.pstr (intStr tid)) = some tr
           ∧ tr.stops = [] ∧ tr.train_id = tid) :
    ∃ tr, dget (processDeparture api tomorrow stationIdStr stationName s dep).cache
        (PKey.pstr (intStr tid)) = some tr
      ∧ tr.stops = [] ∧ tr.train_id = tid := by
  rcases h with hnone | ⟨tr, hg, h1, h2⟩
  · rcases processDeparture_spec api tomorrow stationIdStr stationName s dep with
      ⟨hn, _⟩ | ⟨tid2, r, htid2, hc, _⟩ | ⟨tid2, td, htid2, hc, hok, _⟩
        | ⟨tid2, htid2, hc, herr2, he⟩
    · rw [htid] at hn; exact Option.noConfusion hn
    · rw [htid] at htid2
      have : tid = tid2 := Option.some.inj htid2
      subst this
      rw [hnone] at hc
      exact Option.noConfusion hc
    · rw [htid] at htid2
      have : tid = tid2 := Option.some.inj htid2
      subst this
      rw [herr] at hok
      exact Except.noConfusion hok
    · rw [htid] at htid2
      have : tid = tid2 := Option.some.inj htid2
      subst this
      rw [he]
      dsimp only
      exact ⟨stubRecord tid dep tomorrow stationIdStr stationName,
        dget_dinsert_self _ _ _, rfl, rfl⟩
  · exact ⟨tr, processDeparture_cache_preserved _ _ _ _ _ _ hg, h1, h2⟩

theorem depfold_stores_stub (api : Api)
    (tomorrow stationIdStr stationName : String) {tid : Int} {dep : Departure}
    (htid : truthyTrainId dep = some tid)
    (herr : api.getTrain tid = Except.error ()) :
    ∀ (deps : List Departure) (s : LoopSt), dep ∈ deps →
      (dget s.cache (PKey.pstr (intStr tid)) = none
        ∨ ∃ tr, dget s.cache (PKey.pstr (intStr tid)) = some tr
            ∧ tr.stops = [] ∧ tr.train_id = tid) →
      ∃ tr, dget ((deps.foldl (processDeparture api tomorrow stationIdStr stationName)
          s).cache) (PKey.pstr (intStr tid)) = some tr
        ∧ tr.stops = [] ∧ tr.train_id = tid := by
  intro deps
  induction deps with
  | nil => intro s hmem; exact absurd hmem (List.not_mem_nil dep)
  | cons d rest ih =>
      intro s hmem h
      rw [List.foldl_cons]
      by_cases hd : dep = d
      · subst hd
        obtain ⟨tr, hg, h1, h2⟩ :=
          processDeparture_stores_stub api tomorrow stationIdStr stationName s dep htid herr h
        exact ⟨tr, depfold_cache_preserved api tomorrow stationIdStr stationName rest _ hg,
          h1, h2⟩
      · have hmem2 : dep ∈ rest := by
          rcases List.mem_cons.mp hmem with he | he
          · exact absurd he hd
          · exact he
        exact ih _ hmem2
          (processDeparture_stub_invariant api tomorrow stationIdStr stationName herr s d h)

/-- C3: for a candidate whose detail fetch raises, the fetch stores a
degraded stub under that record key — a record with an empty stop
sequence — instead of leaving the key absent or aborting the station,
and the key is still bound to an empty stop record after the whole
departure loop has finished. -/
theorem failed_detail_fetch_stores_stub (api : Api) (tomorrow : String)
    (cache : List (PKey × TrainRecord)) (stationIdStr stationName : String)
    {sid tid : Int} {dep : Departure}
    (hparse : pyIntOfStr stationIdStr = some sid)
    (hdep : dep ∈ api.departures sid tomorrow)
    (htid : truthyTrainId dep = some tid)
    (herr : api.getTrain tid = Except.error ())
    (habsent : dget cache (PKey.pstr (intStr tid)) = none) :
    ∃ tr, dget (fetchTrainsForStation api tomorrow cache stationIdStr stationName).cache
        (PKey.pstr (intStr tid)) = some tr
      ∧ tr.stops = [] ∧ tr.train_id = tid := by
  rw [fetch_parse_some api tomorrow cache stationIdStr stationName hparse]
  have hcore := depfold_stores_stub api tomorrow stationIdStr stationName htid herr
    (api.departures sid tomorrow)
    { trains := [], cache := cache, newCount := 0, cachedCount := 0,
      events := [Event.getDepartures sid tomorrow] }
    hdep (Or.inl habsent)
  by_cases hn : 0 < ((api.departures sid tomorrow).foldl
      (processDeparture api tomorrow stationIdStr stationName)
      { trains := [], cache := cache, newCount := 0, cachedCount := 0,
        events := [Event.getDepartures sid tomorrow] }).newCount
  · rw [if_pos hn]; exact hcore
  · rw [if_neg hn]; exact hcore

/-- Witness: with an always failing get_train, a fetch over station 1
leaves a stub with empty stops under the key of train 100. -/
theorem failed_detail_fetch_stores_stub_w :
    ∃ tr, dget (fetchTrainsForStation api2 ("D") [] ("1") ("A")).cache
        (PKey.pstr (intStr 100)) = some tr
      ∧ tr.stops = [] ∧ tr.train_id = 100 :=
  @failed_detail_fetch_stores_stub api2 ("D") [] ("1") ("A") 1 100 (depOf 100)
    (by decide) (by decide) (by decide) rfl rfl

/-! ### The single day departures call -/

theorem processDeparture_getdep_filter (api : Api)
    (tomorrow stationIdStr stationName : String) (s : LoopSt) (dep : Departure) :
    ((processDeparture api tomorrow stationIdStr stationName s dep).events).filter
        Event.isGetDep
      = s.events.filter Event.isGetDep := by
  rcases processDeparture_spec api tomorrow stationIdStr stationName s dep with
    ⟨_, he⟩ | ⟨tid, r, _, _, he⟩ | ⟨tid, td, _, _, _, he⟩ | ⟨tid, _, _, _, he⟩
  · rw [he]
  · rw [he]
  · rw [he]
    dsimp only
    rw [List.filter_append]
    simp [Event.isGetDep]
  · rw [he]
    dsimp only
    rw [List.filter_append]
    simp [Event.isGetDep]

theorem depfold_getdep_filter (api : Api) (tomorrow stationIdStr stationName : String) :
    ∀ (deps : List Departure) (s : LoopSt),
      (((deps.foldl (processDeparture api tomorrow stationIdStr stationName) s).events).filter
          Event.isGetDep)
        = s.events.filter Event.isGetDep := by
  intro deps
  induction deps with
  | nil => intro s; rfl
  | cons dep rest ih =>
      intro s
      rw [List.foldl_cons, ih,
        processDeparture_getdep_filter api tomorrow stationIdStr stationName s dep]

/-- C2 amended: for a station whose id string parses, a fetch issues the
departures listing call exactly once, for the single date it was given
(tomorrow) — there is no multi day window. -/
theorem departures_listed_once_per_station (api : Api) (tomorrow : String)
    (cache : List (PKey × TrainRecord)) (stationIdStr stationName : String) {sid : Int}
    (hparse : pyIntOfStr stationIdStr = some sid) :
    ((fetchTrainsForStation api tomorrow cache stationIdStr stationName).events).filter
        Event.isGetDep
      = [Event.getDepartures sid tomorrow] := by
  rw [fetch_parse_some api tomorrow cache stationIdStr stationName hparse]
  by_cases hn : 0 < ((api.departures sid tomorrow).foldl
      (processDeparture api tomorrow stationIdStr stationName)
      { trains := [], cache := cache, newCount := 0, cachedCount := 0,
        events := [Event.getDepartures sid tomorrow] }).newCount
  · rw [if_pos hn]
    dsimp only
    rw [List.filter_append, depfold_getdep_filter]
    simp [Event.isGetDep]
  · rw [if_neg hn]
    rw [depfold_getdep_filter]
    simp [Event.isGetDep]

/-- Witness: one fetch over station 1 lists departures exactly once. -/
theorem departures_listed_once_per_station_w :
    ((fetchTrainsForStation api1 ("D") [] (intStr 1) ("A")).events).filter Event.isGetDep
      = [Event.getDepartures 1 ("D")] :=
  @departures_listed_once_per_station api1 ("D") [] (intStr 1) ("A") 1 (by decide)

/-- C2 counterexample: the claim asserts one departures listing call per
day of an N day window with N greater than one, hence at least two such
calls for a fresh station; the run makes exactly one. -/
theorem departures_window_not_multiday :
    (((fetchTrainsForStation api1 ("D") [] (intStr 1) ("A")).events).filter
        Event.isGetDep).length = 1
    ∧ ¬ 2 ≤ (((fetchTrainsForStation api1 ("D") [] (intStr 1) ("A")).events).filter
        Event.isGetDep).length := by decide

/-! ### Delay discipline -/

theorem processDeparture_counts (api : Api)
    (tomorrow stationIdStr stationName : String) (s : LoopSt) (dep : Departure)
    (h : s.events.countP Event.isSleepSmall = s.events.countP Event.isOkGetTrain
      ∧ s.newCount = s.events.countP Event.isGetTrainCall
      ∧ Event.sleep 5 ∉ s.events) :
    ((processDeparture api tomorrow stationIdStr stationName s dep).events).countP
        Event.isSleepSmall
      = ((processDeparture api tomorrow stationIdStr stationName s dep).events).countP
          Event.isOkGetTrain
    ∧ (processDeparture api tomorrow stationIdStr stationName s dep).newCount
      = ((processDeparture api tomorrow stationIdStr stationName s dep).events).countP
          Event.isGetTrainCall
    ∧ Event.sleep 5 ∉ (processDeparture api tomorrow stationIdStr stationName s dep).events := by
  obtain ⟨h1, h2, h3⟩ := h
  rcases processDeparture_spec api tomorrow stationIdStr stationName s dep with
    ⟨_, he⟩ | ⟨tid, r, _, _, he⟩ | ⟨tid, td, _, _, _, he⟩ | ⟨tid, _, _, _, he⟩
  · rw [he]; exact ⟨h1, h2, h3⟩
  · rw [he]; exact ⟨h1, h2, h3⟩
  · rw [he]
    dsimp only
    refine ⟨?_, ?_, ?_⟩
    · rw [List.countP_append, List.countP_append, h1]
      simp [Event.isSleepSmall, Event.isOkGetTrain, List.countP_cons]
    · rw [List.countP_append, h2]
      simp [Event.isGetTrainCall, List.countP_cons]
    · intro hmem
      rcases List.mem_append.mp hmem with hm | hm
      · exact h3 hm
      · simp at hm
  · rw [he]
    dsimp only
    refine ⟨?_, ?_, ?_⟩
    · rw [List.countP_append, List.countP_append, h1]
      simp [Event.isSleepSmall, Event.isOkGetTrain, List.countP_cons]
    · rw [List.countP_append, h2]
      simp [Event.isGetTrainCall, List.countP_cons]
    · intro hmem
      rcases List.mem_append.mp hmem with hm | hm
      · exact h3 hm
      · simp at hm

theorem depfold_counts (api : Api) (tomorrow stationIdStr stationName : String) :
    ∀ (deps : List Departure) (s : LoopSt),
      (s.events.countP Event.isSleepSmall = s.events.countP Event.isOkGetTrain
        ∧ s.newCount = s.events.countP Event.isGetTrainCall
        ∧ Event.sleep 5 ∉ s.events) →
      (((deps.foldl (processDeparture api tomorrow stationIdStr stationName) s).events).countP
          Event.isSleepSmall
        = ((deps.foldl (processDeparture api tomorrow stationIdStr stationName)
            s).events).countP Event.isOkGetTrain
      ∧ (deps.foldl (processDeparture api tomorrow stationIdStr stationName) s).newCount
        = ((deps.foldl (processDeparture api tomorrow stationIdStr stationName)
            s).events).countP Event.isGetTrainCall
      ∧ Event.sleep 5 ∉ (deps.foldl (processDeparture api tomorrow stationIdStr
          stationName) s).events) := by
  intro deps
  induction deps with
  | nil => intro s h; exact h
  | cons dep rest ih =>
      intro s h
      exact ih _ (processDeparture_counts api tomorrow stationIdStr stationName s dep h)

/-- C7 amended: within one station, the small 0.2 s delay happens
exactly once per successful network resolution (a failed resolution
that stores a stub gets no small delay), the larger 0.5 s delay happens
after the station exactly when at least one resolution needed a network
call, and a run whose candidates were all cache resident sleeps not at
all (it records zero get_train calls, hence zero small delays and no
large delay). -/
theorem delay_discipline (api : Api) (tomorrow : String)
    (cache : List (PKey × TrainRecord)) (stationIdStr stationName : String) :
    ((fetchTrainsForStation api tomorrow cache stationIdStr stationName).events).countP
        Event.isSleepSmall
      = ((fetchTrainsForStation api tomorrow cache stationIdStr stationName).events).countP
          Event.isOkGetTrain
    ∧ (fetchTrainsForStation api tomorrow cache stationIdStr stationName).newCount
      = ((fetchTrainsForStation api tomorrow cache stationIdStr stationName).events).countP
          Event.isGetTrainCall
    ∧ (Event.sleep 5 ∈ (fetchTrainsForStation api tomorrow cache stationIdStr
          stationName).events
        ↔ 0 < (fetchTrainsForStation api tomorrow cache stationIdStr stationName).newCount) := by
  cases hp : pyIntOfStr stationIdStr with
  | none =>
      rw [fetch_parse_none api tomorrow cache stationIdStr stationName hp]
      refine ⟨rfl, rfl, ?_⟩
      constructor
      · intro hmem; simp at hmem
      · intro hlt; simp at hlt
  | some sid =>
      rw [fetch_parse_some api tomorrow cache stationIdStr stationName hp]
      have hbase : (([Event.getDepartures sid tomorrow] : List Event).countP
            Event.isSleepSmall
          = ([Event.getDepartures sid tomorrow] : List Event).countP Event.isOkGetTrain)
          ∧ (0 : Nat) = ([Event.getDepartures sid tomorrow] : List Event).countP
              Event.isGetTrainCall
          ∧ Event.sleep 5 ∉ ([Event.getDepartures sid tomorrow] : List Event) := by
        refine ⟨rfl, rfl, ?_⟩
        intro hmem
        simp at hmem
      obtain ⟨h1, h2, h3⟩ := depfold_counts api tomorrow stationIdStr stationName
        (api.departures sid tomorrow)
        { trains := [], cache := cache, newCount := 0, cachedCount := 0,
          events := [Event.getDepartures sid tomorrow] } hbase
      by_cases hn : 0 < ((api.departures sid tomorrow).foldl
          (processDeparture api tomorrow stationIdStr stationName)
          { trains := [], cache := cache, newCount := 0, cachedCount := 0,
            events := [Event.getDepartures sid tomorrow] }).newCount
      · rw [if_pos hn]
        dsimp only
        refine ⟨?_, ?_, ?_⟩
        · rw [List.countP_append, List.countP_append, h1]
          simp [Event.isSleepSmall, Event.isOkGetTrain, List.countP_cons]
        · rw [List.countP_append, h2]
          simp [Event.isGetTrainCall, List.countP_cons]
        · constructor
          · intro _; exact hn
          · intro _
            exact List.mem_append.mpr (Or.inr (List.mem_cons_self _ _))
      · rw [if_neg hn]
        refine ⟨h1, h2, ?_⟩
        constructor
        · intro hmem; exact absurd hmem h3
        · intro hlt; exact absurd hlt hn

/-- C7 counterexample: a failed resolution (get_train raises, a stub is
stored) receives no small 0.2 s delay — the event trace of a station
with one failing candidate has the network call and the 0.5 s station
delay but no 0.2 s sleep, contradicting the claim that the small delay
follows every network resolution including failed ones. -/
theorem failed_resolution_gets_no_small_delay :
    (fetchTrainsForStation api2 ("D") [] (intStr 1) ("A")).events
      = [Event.getDepartures 1 ("D"), Event.getTrain 100 false, Event.sleep 5]
    ∧ Event.sleep 2 ∉ (fetchTrainsForStation api2 ("D") [] (intStr 1) ("A")).events := by
  decide

/-! ### Idempotent reruns against a pre-populated cache -/

theorem depfold_all_cached (api : Api) (tomorrow stationIdStr stationName : String) :
    ∀ (deps : List Departure) (s : LoopSt),
      (∀ dep ∈ deps, ∀ tid, truthyTrainId dep = some tid →
        (dget s.cache (PKey.pstr (intStr tid))).isSome = true) →
      ((deps.foldl (processDeparture api tomorrow stationIdStr stationName) s).cache = s.cache
      ∧ (deps.foldl (processDeparture api tomorrow stationIdStr stationName) s).newCount
          = s.newCount
      ∧ (deps.foldl (processDeparture api tomorrow stationIdStr stationName) s).events
          = s.events) := by
  intro deps
  induction deps with
  | nil => intro s _; exact ⟨rfl, rfl, rfl⟩
  | cons dep rest ih =>
      intro s h
      rw [List.foldl_cons]
      rcases processDeparture_spec api tomorrow stationIdStr stationName s dep with
        ⟨_, he⟩ | ⟨tid, r, _, _, he⟩ | ⟨tid, td, htid, hc, _, he⟩ | ⟨tid, htid, hc, _, he⟩
      · rw [he]
        exact ih s (fun d hd => h d (List.mem_cons_of_mem _ hd))
      · rw [he]
        exact ih { s with trains := s.trains ++ [r], cachedCount := s.cachedCount + 1 }
          (fun d hd => h d (List.mem_cons_of_mem _ hd))
      · exfalso
        have hx := h dep (List.mem_cons_self _ _) tid htid
        rw [hc] at hx
        exact Bool.noConfusion hx
      · exfalso
        have hx := h dep (List.mem_cons_self _ _) tid htid
        rw [hc] at hx
        exact Bool.noConfusion hx

theorem fetch_all_cached (api : Api) (tomorrow : String)
    (cache : List (PKey × TrainRecord)) (stationIdStr stationName : String)
    (h : ∀ sid, pyIntOfStr stationIdStr = some sid →
      ∀ dep ∈ api.departures sid tomorrow, ∀ tid, truthyTrainId dep = some tid →
        (dget cache (PKey.pstr (intStr tid))).isSome = true) :
    (fetchTrainsForStation api tomorrow cache stationIdStr stationName).cache = cache
    ∧ ((fetchTrainsForStation api tomorrow cache stationIdStr stationName).events).all
        Event.isGetDep = true := by
  cases hp : pyIntOfStr stationIdStr with
  | none =>
      rw [fetch_parse_none api tomorrow cache stationIdStr stationName hp]
      exact ⟨rfl, rfl⟩
  | some sid =>
      rw [fetch_parse_some api tomorrow cache stationIdStr stationName hp]
      obtain ⟨hc, hn, hev⟩ := depfold_all_cached api tomorrow stationIdStr stationName
        (api.departures sid tomorrow)
        { trains := [], cache := cache, newCount := 0, cachedCount := 0,
          events := [Event.getDepartures sid tomorrow] } (h sid hp)
      have hnlt : ¬ 0 < ((api.departures sid tomorrow).foldl
          (processDeparture api tomorrow stationIdStr stationName)
          { trains := [], cache := cache, newCount := 0, cachedCount := 0,
            events := [Event.getDepartures sid tomorrow] }).newCount := by
        rw [hn]; exact Nat.lt_irrefl 0
      rw [if_neg hnlt]
      refine ⟨hc, ?_⟩
      rw [hev]
      rfl

theorem allCandidatesCached_spec (api : Api) (tomorrow : String)
    (cache : List (PKey × TrainRecord)) (item : PKey × StationInfo)
    (h : allCandidatesCached api tomorrow cache item = true) :
    ∀ sid, pyIntOfStr (pyStr item.1) = some sid →
      ∀ dep ∈ api.departures sid tomorrow, ∀ tid, truthyTrainId dep = some tid →
        (dget cache (PKey.pstr (intStr tid))).isSome = true := by
  intro sid hsid dep hdep tid htid
  unfold allCandidatesCached at h
  rw [hsid] at h
  have h2 := List.all_eq_true.mp h dep hdep
  rw [htid] at h2
  exact h2

theorem scrapeStep_all_cached (api : Api) (tomorrow : String) (saveEvery : Nat)
    (st : ScrapeState) (item : PKey × StationInfo)
    (h : allCandidatesCached api tomorrow st.trains item = true)
    (hev : st.events.all Event.isGetDep = true) :
    (scrapeStep api tomorrow saveEvery st item).trains = st.trains
    ∧ (scrapeStep api tomorrow saveEvery st item).events.all Event.isGetDep = true := by
  unfold scrapeStep
  by_cases hm : item.1 ∈ st.processed
  · rw [if_pos hm]; exact ⟨rfl, hev⟩
  · rw [if_neg hm]
    dsimp only
    obtain ⟨hc, hall⟩ := fetch_all_cached api tomorrow st.trains (pyStr item.1) item.2.name
      (allCandidatesCached_spec api tomorrow st.trains item h)
    by_cases hs : (padd st.processed item.1).length % saveEvery = 0
    · rw [if_pos hs]
      exact ⟨hc, by simp [List.all_append, hev, hall]⟩
    · rw [if_neg hs]
      exact ⟨hc, by simp [List.all_append, hev, hall]⟩

theorem scrapeLoop_all_cached (api : Api) (tomorrow : String) (saveEvery : Nat) :
    ∀ (ws : List (PKey × StationInfo)) (st : ScrapeState),
      (∀ item ∈ ws, allCandidatesCached api tomorrow st.trains item = true) →
      st.events.all Event.isGetDep = true →
      ((scrapeLoop api tomorrow saveEvery st ws).trains = st.trains
      ∧ (scrapeLoop api tomorrow saveEvery st ws).events.all Event.isGetDep = true) := by
  intro ws
  induction ws with
  | nil => intro st _ hev; exact ⟨rfl, hev⟩
  | cons item rest ih =>
      intro st h hev
      obtain ⟨ht, he⟩ := scrapeStep_all_cached api tomorrow saveEvery st item
        (h item (List.mem_cons_self _ _)) hev
      obtain ⟨t2, e2⟩ := ih (scrapeStep api tomorrow saveEvery st item)
        (fun it hit => by rw [ht]; exact h it (List.mem_cons_of_mem _ hit)) he
      constructor
      · show (scrapeLoop api tomorrow saveEvery
            (scrapeStep api tomorrow saveEvery st item) rest).trains = st.trains
        rw [t2, ht]
      · show (scrapeLoop api tomorrow saveEvery
            (scrapeStep api tomorrow saveEvery st item) rest).events.all Event.isGetDep
              = true
        exact e2

/-- C1 amended: a rerun of the crawl whose train cache already holds
every record the departures of the date reference resolves entirely
from cache — the cache is unchanged and every event of the run is a
departures listing call (so no get_train detail call and no sleep
happens); the one departures listing call per station, however, is
still made, so the run is not network free. -/
theorem second_run_resolves_from_cache (api : Api) (tomorrow : String) (st0 : ScrapeState)
    (hev : st0.events = [])
    (hcached : ∀ item ∈ st0.stations,
      allCandidatesCached api tomorrow st0.trains item = true) :
    (scrapeAllTrains api tomorrow st0).trains = st0.trains
    ∧ (scrapeAllTrains api tomorrow st0).events.all Event.isGetDep = true :=
  scrapeLoop_all_cached api tomorrow 500 st0.stations st0 hcached (by rw [hev]; rfl)

/-- Witness: a second crawl over station 1 with the cache produced by a
first crawl keeps the cache and emits only departures listing events. -/
theorem second_run_resolves_from_cache_w :
    (scrapeAllTrains api1 ("D") { st0C1 with trains := run1C1.trains }).trains
      = ({ st0C1 with trains := run1C1.trains } : ScrapeState).trains
    ∧ (scrapeAllTrains api1 ("D") { st0C1 with trains := run1C1.trains }).events.all
        Event.isGetDep = true :=
  second_run_resolves_from_cache api1 ("D") { st0C1 with trains := run1C1.trains }
    rfl (by decide)

/-- C1 counterexample: with the cache pre-populated with every record
the date window references (the cache produced by a first run), a
second run of the crawl over the same one station worklist still issues
exactly one network call — the departures listing — so the claim of
zero network calls fails. -/
theorem second_run_still_calls_the_network :
    (dget run1C1.trains (PKey.pstr (intStr 100))).isSome = true
    ∧ networkCalls run2C1.events = 1
    ∧ networkCalls run2C1.events ≠ 0 := by decide

/-! ### Checkpoint cadence -/

theorem scrapeStep_fresh_processed (api : Api) (tomorrow : String) (saveEvery : Nat)
    (st : ScrapeState) (item : PKey × StationInfo) (h : item.1 ∉ st.processed) :
    (scrapeStep api tomorrow saveEvery st item).processed = st.processed ++ [item.1] := by
  unfold scrapeStep
  rw [if_neg h]
  dsimp only
  have hp : padd st.processed item.1 = st.processed ++ [item.1] := by
    unfold padd; rw [if_neg h]
  by_cases hs : (padd st.processed item.1).length % saveEvery = 0
  · rw [if_pos hs]; exact hp
  · rw [if_neg hs]; exact hp

theorem scrapeLoop_checkpoint (api : Api) (tomorrow : String) (K : Nat) :
    ∀ (ws : List (PKey × StationInfo)) (st : ScrapeState), ws ≠ [] →
      (∀ p ∈ ws, p.1 ∉ st.processed) → (ws.map Prod.fst).Nodup →
      (st.processed.length + ws.length) % K = 0 →
      (scrapeLoop api tomorrow K st ws).disk
        = some ((scrapeLoop api tomorrow K st ws).stations,
                (scrapeLoop api tomorrow K st ws).trains) := by
  intro ws
  induction ws with
  | nil => intro st hne _ _ _; exact absurd rfl hne
  | cons item rest ih =>
      intro st _ hfresh hnodup hmod
      have hni : item.1 ∉ st.processed := hfresh item (List.mem_cons_self _ _)
      by_cases hrest : rest = []
      · subst hrest
        simp only [scrapeLoop, List.foldl_cons, List.foldl_nil]
        unfold scrapeStep
        rw [if_neg hni]
        dsimp only
        have hlen : (padd st.processed item.1).length = st.processed.length + 1 := by
          unfold padd; rw [if_neg hni]; simp
        have hm : (padd st.processed item.1).length % K = 0 := by
          rw [hlen]
          simpa using hmod
        rw [if_pos hm]
      · have hproc := scrapeStep_fresh_processed api tomorrow K st item hni
        have hfresh2 : ∀ p ∈ rest, p.1 ∉ (scrapeStep api tomorrow K st item).processed := by
          intro p hp hmem
          rw [hproc] at hmem
          rcases List.mem_append.mp hmem with hm | hm
          · exact hfresh p (List.mem_cons_of_mem _ hp) hm
          · have hpe : p.1 = item.1 := by simpa using hm
            have hnodup2 : item.1 ∉ rest.map Prod.fst := by
              rw [List.map_cons] at hnodup
              exact (List.nodup_cons.mp hnodup).1
            exact hnodup2 (hpe ▸ List.mem_map_of_mem Prod.fst hp)
        have hnodup2 : (rest.map Prod.fst).Nodup := by
          rw [List.map_cons] at hnodup
          exact (List.nodup_cons.mp hnodup).2
        have hmod2 : ((scrapeStep api tomorrow K st item).processed.length + rest.length)
            % K = 0 := by
          rw [hproc]
          have he2 : (st.processed ++ [item.1]).length + rest.length
              = st.processed.length + (item :: rest).length := by
            simp [List.length_append]
            omega
          rw [he2]
          exact hmod
        have := ih (scrapeStep api tomorrow K st item) hrest hfresh2 hnodup2 hmod2
        simpa [scrapeLoop, List.foldl_cons] using this

/-- C6: after every K-th completed station (K is the loop parameter,
500 in scrape_all_trains) the full in-memory cache is persisted, so a
crawl from a clean processed set over exactly K fresh stations ends
with the on-disk cache equal to the final in-memory stations and trains
dicts — every record fetched so far is on disk. -/
theorem checkpoint_flushes_cache (api : Api) (tomorrow : String) (K : Nat)
    (st0 : ScrapeState) (hK : 0 < K) (hpr : st0.processed = [])
    (hlen : st0.stations.length = K) (hnodup : (st0.stations.map Prod.fst).Nodup) :
    (scrapeLoop api tomorrow K st0 st0.stations).disk
      = some ((scrapeLoop api tomorrow K st0 st0.stations).stations,
              (scrapeLoop api tomorrow K st0 st0.stations).trains) := by
  apply scrapeLoop_checkpoint api tomorrow K st0.stations st0
  · intro hnil
    rw [hnil] at hlen
    simp at hlen
    omega
  · intro p _
    rw [hpr]
    simp
  · exact hnodup
  · rw [hpr, hlen]
    simp [Nat.mod_self]

/-- Witness: with K = 2 and two fresh stations, the loop ends with the
disk snapshot equal to the final in-memory state. -/
theorem checkpoint_flushes_cache_w :
    (scrapeLoop api1 ("D") 2
      { stations := [(PKey.pint 1, infoA), (PKey.pint 2, infoB)], trains := [],
        processed := [], disk := none, events := [] }
      [(PKey.pint 1, infoA), (PKey.pint 2, infoB)]).disk
      = some ((scrapeLoop api1 ("D") 2
          { stations := [(PKey.pint 1, infoA), (PKey.pint 2, infoB)], trains := [],
            processed := [], disk := none, events := [] }
          [(PKey.pint 1, infoA), (PKey.pint 2, infoB)]).stations,
        (scrapeLoop api1 ("D") 2
          { stations := [(PKey.pint 1, infoA), (PKey.pint 2, infoB)], trains := [],
            processed := [], disk := none, events := [] }
          [(PKey.pint 1, infoA), (PKey.pint 2, infoB)]).trains) :=
  checkpoint_flushes_cache api1 ("D") 2 _ (by decide) rfl rfl (by decide)

/-! ### Failure of the top level station listing -/

/-- C8 counterexample: with one station loaded from the cache and a
failing get_stations, the entity collection used by the crawl is not
empty and the run still performs a network call, so the run does not
behave as if no entities were found. -/
theorem stations_failure_crawls_cached_stations :
    (fetchStations api3
      { stations := [(PKey.pstr (intStr 1), infoA)], trains := [], processed := [],
        disk := none, events := [] }).stations.length = 1
    ∧ networkCalls (runScraper api3 ("D") false
        { stations := [(PKey.pstr (intStr 1), infoA)], trains := [], processed := [],
          disk := none, events := [] }).events = 1 := by decide

/-- C8 amended: an exception while fetching the station list is caught
and adds nothing — fetch_stations leaves the state exactly as it was —
and the crawl then runs over whatever stations were already in memory;
only when that collection was empty does the run complete trivially,
with no events and an unchanged train cache. -/
theorem stations_failure_keeps_state (api : Api) (tomorrow : String) (st0 : ScrapeState)
    (herr : api.getStationsResult = Except.error ()) :
    fetchStations api st0 = st0
    ∧ (st0.stations = [] → st0.events = [] →
        (runScraper api tomorrow false st0).events = []
        ∧ (runScraper api tomorrow false st0).trains = st0.trains) := by
  have hfs : fetchStations api st0 = st0 := by
    unfold fetchStations
    rw [herr]
  refine ⟨hfs, ?_⟩
  intro hst hev
  have hrun : runScraper api tomorrow false st0
      = { scrapeAllTrains api tomorrow st0 with
          disk := some ((scrapeAllTrains api tomorrow st0).stations,
            (scrapeAllTrains api tomorrow st0).trains) } := by
    simp only [runScraper, hfs, if_neg (Bool.false_ne_true ∘ congrArg id)]
  have hcrawl : scrapeAllTrains api tomorrow st0 = st0 := by
    unfold scrapeAllTrains scrapeLoop
    rw [hst]
    rfl
  rw [hrun, hcrawl]
  exact ⟨hev, rfl⟩

/-- Witness: on an empty initial state with a failing get_stations, the
state is unchanged and the run is a no-op. -/
theorem stations_failure_keeps_state_w :
    fetchStations api3
      { stations := [], trains := [], processed := [], disk := none, events := [] }
      = { stations := [], trains := [], processed := [], disk := none, events := [] }
    ∧ ((runScraper api3 ("D") false
        { stations := [], trains := [], processed := [], disk := none, events := [] }).events
          = []
      ∧ (runScraper api3 ("D") false
          { stations := [], trains := [], processed := [], disk := none,
            events := [] }).trains
        = ({ stations := [], trains := [], processed := [], disk := none,
             events := [] } : ScrapeState).trains) :=
  ⟨(stations_failure_keeps_state api3 ("D") _ rfl).1,
   (stations_failure_keeps_state api3 ("D") _ rfl).2 rfl rfl⟩

end Scraper
